import Mathlib

/-!
Verification of the GitOps promotion pull-request poll loop of `jx delete app`
(`waitForGitOpsPullRequest` and its caller `deleteAppFromEnvironment`, file
`delete_application.go` in the sources).

Modelling conventions:
* `time.Time` and `time.Duration` are modelled as `Nat` (an abstract clock).
  Each tick of the `for` loop happens at a clock value; the trailing
  `time.Sleep(*o.PullRequestPollDuration)` advances the clock by the poll
  interval.  `time.Now().After(end)` is the strict comparison `end < now`.
* Provider calls (`UpdatePullRequestStatus`, `PullRequestLastCommitStatus`,
  `MergePullRequest`) are driven by an environment-supplied response stream,
  one `TickResponse` per loop iteration; the loop records the calls it makes
  and the warnings it prints so that trace properties can be stated.
* Go `error` results are modelled as `Except String`/`Option String`.
* The loop is run on fuel (a bound on the number of iterations); termination
  theorems show that enough fuel always exists and that the result is stable
  once reached.
-/

namespace GodogJx

/-- Pull-request handle, the fields of `gits.GitPullRequest` that the loop
reads: `URL`, `LastCommitSha`, `Merged *bool` (so a tri-state `Option Bool`),
and the closed state. -/
structure GitPullRequest where
  url : String
  lastCommitSha : String
  merged : Option Bool
  closed : Bool
deriving DecidableEq, Repr

/-- Modelled from the spec: `gits.GitPullRequest.IsClosed` is not in the
sources (only its call site is); the spec's data model gives the handle a
plain boolean `closedFlag`, so `IsClosed` reads that flag. -/
def GitPullRequest.IsClosed (pr : GitPullRequest) : Bool :=
  pr.closed

/-- The fields of `DeleteAppOptions` that the poll loop reads:
`NoMergePullRequest` (flag `--no-merge`) and the poll interval
`PullRequestPollDuration` (flag `--pull-request-poll-time`, default `20s`). -/
structure DeleteAppOptions where
  NoMergePullRequest : Bool
  PullRequestPollDuration : Nat
deriving DecidableEq, Repr

/-- The provider responses consumed by one iteration of the loop:
the result of `UpdatePullRequestStatus` (an error, or the refreshed pull
request), the result of `PullRequestLastCommitStatus` (an error, or a status
string), and the result of `MergePullRequest` (`none` = merge succeeded,
`some e` = merge returned error `e`).  Calls the iteration does not make
simply ignore the corresponding field. -/
structure TickResponse where
  refresh : Except String GitPullRequest
  ciStatus : Except String String
  mergeError : Option String
deriving Repr

/-- The git-provider calls the loop can issue. -/
inductive Call where
  | updatePullRequestStatus
  | pullRequestLastCommitStatus
  | mergePullRequest
deriving DecidableEq, Repr, BEq

/-- The `o.warnf` log events inside the loop body: "Pull Request %s is
closed", "Failed to query the Pull Request last commit status ...", and
"Failed to merge the Pull Request %s due to %s maybe I don't have karma?". -/
inductive WarnEvent where
  | prClosed
  | ciStatusQueryFailed
  | mergeFailed
deriving DecidableEq, Repr, BEq

/-- The terminal results of `waitForGitOpsPullRequest`, each carrying the
exact `fmt.Errorf` message the Go code returns (`merged` and
`noPullRequest` are the `return nil` paths). -/
inductive Outcome where
  | merged
  | refreshFailed (msg : String)
  | closedWithoutMerge (msg : String)
  | lastCommitStatusBad (msg : String)
  | timedOut (msg : String)
  | noPullRequest
deriving DecidableEq, Repr

/-- The Go `error` value a given outcome corresponds to (`none` = `nil`). -/
def Outcome.toError : Outcome → Option String
  | .merged => none
  | .noPullRequest => none
  | .refreshFailed m => some m
  | .closedWithoutMerge m => some m
  | .lastCommitStatusBad m => some m
  | .timedOut m => some m

/-- Whether an outcome is the timed-out error of line 279. -/
def Outcome.isTimedOut : Outcome → Bool
  | .timedOut _ => true
  | _ => false

/-- Whether an outcome is one of the three terminal outcomes named by the
spec: Merged, ClosedWithoutMerge, TimedOut. -/
def Outcome.inSpecTerminal : Outcome → Bool
  | .merged => true
  | .closedWithoutMerge _ => true
  | .timedOut _ => true
  | _ => false

/-- Mutable state carried across loop iterations: the pull-request object
(mutated in place by `UpdatePullRequestStatus` in Go), the
`logMergeFailure` flag, and the current clock value. -/
structure LoopState where
  pr : GitPullRequest
  logMergeFailure : Bool
  now : Nat
deriving DecidableEq, Repr

/-- One loop iteration either returns from the function or continues with an
updated state. -/
inductive Step where
  | done (out : Outcome)
  | cont (s : LoopState)
deriving DecidableEq, Repr

/-- What one loop iteration produced: its control-flow result, the provider
calls it made (in order), and the warnings it printed. -/
structure TickOut where
  next : Step
  calls : List Call
  warns : List WarnEvent
deriving DecidableEq, Repr

/-- The tail of the loop body (lines 278-281): `if time.Now().After(end)`
return the timed-out error, else sleep for the poll interval and iterate. -/
def timeoutCheck (o : DeleteAppOptions) (endTime : Nat) (durationString : String)
    (pr : GitPullRequest) (logMergeFailure : Bool) (now : Nat)
    (calls : List Call) (warns : List WarnEvent) : TickOut :=
  if endTime < now then
    ⟨.done (.timedOut ("Timed out waiting for pull request " ++ pr.url ++
        " to merge. Waited " ++ durationString)), calls, warns⟩
  else
    ⟨.cont ⟨pr, logMergeFailure, now + o.PullRequestPollDuration⟩, calls, warns⟩

/-- One iteration of the `for` loop of `waitForGitOpsPullRequest`
(lines 242-282), driven by the provider responses `r` for this tick. -/
def pollTick (o : DeleteAppOptions) (endTime : Nat) (durationString : String)
    (s : LoopState) (r : TickResponse) : TickOut :=
  match r.refresh with
  | .error e =>
      -- lines 244-247: err := gitProvider.UpdatePullRequestStatus(pr); if err != nil return
      ⟨.done (.refreshFailed ("Failed to query the Pull Request status for " ++
          s.pr.url ++ " " ++ e)), [.updatePullRequestStatus], []⟩
  | .ok pr =>
      if pr.merged = some true then
        -- lines 249-251: pr.Merged != nil && *pr.Merged: return nil
        ⟨.done .merged, [.updatePullRequestStatus], []⟩
      else if pr.IsClosed then
        -- lines 253-256: warn and return the closed-without-merging error
        ⟨.done (.closedWithoutMerge ("Promotion failed as Pull Request " ++
            pr.url ++ " is closed without merging")),
          [.updatePullRequestStatus], [.prClosed]⟩
      else
        match r.ciStatus with
        | .error _ =>
            -- lines 259-261: warn only (the return is commented out in the source)
            timeoutCheck o endTime durationString pr s.logMergeFailure s.now
              [.updatePullRequestStatus, .pullRequestLastCommitStatus]
              [.ciStatusQueryFailed]
        | .ok status =>
            if status = "success" then
              if !o.NoMergePullRequest then
                match r.mergeError with
                | none =>
                    timeoutCheck o endTime durationString pr s.logMergeFailure s.now
                      [.updatePullRequestStatus, .pullRequestLastCommitStatus,
                        .mergePullRequest] []
                | some _ =>
                    -- lines 266-271: warn once (guarded by logMergeFailure), keep going
                    if s.logMergeFailure then
                      timeoutCheck o endTime durationString pr true s.now
                        [.updatePullRequestStatus, .pullRequestLastCommitStatus,
                          .mergePullRequest] []
                    else
                      timeoutCheck o endTime durationString pr true s.now
                        [.updatePullRequestStatus, .pullRequestLastCommitStatus,
                          .mergePullRequest] [.mergeFailed]
              else
                timeoutCheck o endTime durationString pr s.logMergeFailure s.now
                  [.updatePullRequestStatus, .pullRequestLastCommitStatus] []
            else if status = "error" ∨ status = "failure" then
              -- lines 273-275: return the last-commit-status error
              ⟨.done (.lastCommitStatusBad ("Pull request " ++ pr.url ++
                  " last commit has status " ++ status ++ " for ref " ++
                  pr.lastCommitSha)),
                [.updatePullRequestStatus, .pullRequestLastCommitStatus], []⟩
            else
              timeoutCheck o endTime durationString pr s.logMergeFailure s.now
                [.updatePullRequestStatus, .pullRequestLastCommitStatus] []

/-- The result of running the loop: the returned outcome (`none` when the
iteration bound was exhausted first), the concatenated provider-call trace,
and the concatenated warning trace. -/
structure RunResult where
  outcome : Option Outcome
  calls : List Call
  warns : List WarnEvent
deriving DecidableEq, Repr

/-- The `for` loop of `waitForGitOpsPullRequest`, run on fuel.  `resps i`
supplies the provider responses consumed by the i-th remaining iteration. -/
def waitLoop (o : DeleteAppOptions) (endTime : Nat) (durationString : String) :
    (Nat → TickResponse) → Nat → LoopState → RunResult
  | _, 0, _ => ⟨none, [], []⟩
  | resps, fuel + 1, s =>
      let t := pollTick o endTime durationString s (resps 0)
      match t.next with
      | .done out => ⟨some out, t.calls, t.warns⟩
      | .cont s' =>
          let rest := waitLoop o endTime durationString (fun i => resps (i + 1)) fuel s'
          ⟨rest.outcome, t.calls ++ rest.calls, t.warns ++ rest.warns⟩

/-- `waitForGitOpsPullRequest` (lines 236-285): if `pullRequestInfo` is nil
the function returns nil at once; otherwise it enters the poll loop with
`logMergeFailure = false` at clock `startTime`. -/
def waitForGitOpsPullRequest (o : DeleteAppOptions)
    (pullRequestInfo : Option GitPullRequest) (endTime : Nat)
    (durationString : String) (resps : Nat → TickResponse) (fuel : Nat)
    (startTime : Nat) : RunResult :=
  match pullRequestInfo with
  | none => ⟨some .noPullRequest, [], []⟩
  | some pr => waitLoop o endTime durationString resps fuel ⟨pr, false, startTime⟩

/-- The tail of `deleteAppFromEnvironment` (lines 230-233): `end` is
`time.Now().Add(duration)`, and the wait starts at that same `now`. -/
def deleteAppFromEnvironmentWait (o : DeleteAppOptions)
    (pullRequestInfo : Option GitPullRequest) (now duration : Nat)
    (durationString : String) (resps : Nat → TickResponse) (fuel : Nat) :
    RunResult :=
  waitForGitOpsPullRequest o pullRequestInfo (now + duration) durationString
    resps fuel now

/-- Iterations needed before the loop is guaranteed to have returned:
one when the clock is already past `endTime`, otherwise
`(endTime - now) / pollInterval + 2`. -/
def fuelNeeded (now endTime pollInterval : Nat) : Nat :=
  if endTime < now then 1 else (endTime - now) / pollInterval + 2

/-- A provider response on which the loop neither returns nor stops early:
refresh succeeds, the pull request is neither merged nor closed, and the CI
status — when the query succeeds — is neither "failure" nor "error". -/
def NonTerminalResponse (r : TickResponse) : Prop :=
  (∃ pr : GitPullRequest, r.refresh = .ok pr ∧ pr.merged ≠ some true ∧
    pr.closed = false) ∧
  (∀ st : String, r.ciStatus = .ok st → st ≠ "failure" ∧ st ≠ "error")

end GodogJx

namespace GodogJx

/-- `timeoutCheck` never changes the recorded call list. -/
theorem timeoutCheck_calls (o : DeleteAppOptions) (endT : Nat) (d : String)
    (pr : GitPullRequest) (lmf : Bool) (now : Nat) (calls : List Call)
    (warns : List WarnEvent) :
    (timeoutCheck o endT d pr lmf now calls warns).calls = calls := by
  unfold timeoutCheck
  split <;> rfl

/-- `timeoutCheck` never changes the recorded warning list. -/
theorem timeoutCheck_warns (o : DeleteAppOptions) (endT : Nat) (d : String)
    (pr : GitPullRequest) (lmf : Bool) (now : Nat) (calls : List Call)
    (warns : List WarnEvent) :
    (timeoutCheck o endT d pr lmf now calls warns).warns = warns := by
  unfold timeoutCheck
  split <;> rfl

/-- If `timeoutCheck` continues the loop, the deadline had not passed and the
clock advanced by exactly the poll interval. -/
theorem timeoutCheck_cont {o : DeleteAppOptions} {endT : Nat} {d : String}
    {pr : GitPullRequest} {lmf : Bool} {now : Nat} {calls : List Call}
    {warns : List WarnEvent} {s' : LoopState}
    (h : (timeoutCheck o endT d pr lmf now calls warns).next = .cont s') :
    ¬ endT < now ∧ s'.now = now + o.PullRequestPollDuration := by
  unfold timeoutCheck at h
  split at h
  · exact Step.noConfusion h
  · next hn => cases h; exact ⟨hn, rfl⟩

/-- If a poll tick continues the loop, the deadline had not passed at that
tick and the clock advanced by exactly the poll interval. -/
theorem pollTick_cont {o : DeleteAppOptions} {endT : Nat} {d : String}
    {s : LoopState} {r : TickResponse} {s' : LoopState}
    (h : (pollTick o endT d s r).next = .cont s') :
    ¬ endT < s.now ∧ s'.now = s.now + o.PullRequestPollDuration := by
  obtain ⟨rf, rc, rm⟩ := r
  unfold pollTick at h
  cases rf with
  | error e => exact Step.noConfusion h
  | ok pr =>
    dsimp at h
    split at h
    · exact Step.noConfusion h
    · split at h
      · exact Step.noConfusion h
      · cases rc with
        | error e => exact timeoutCheck_cont h
        | ok status =>
          dsimp at h
          split at h
          · split at h
            · cases rm with
              | none => exact timeoutCheck_cont h
              | some e =>
                dsimp at h
                split at h
                · exact timeoutCheck_cont h
                · exact timeoutCheck_cont h
            · exact timeoutCheck_cont h
          · split at h
            · exact Step.noConfusion h
            · exact timeoutCheck_cont h

/-- Every poll tick issues `UpdatePullRequestStatus` as its first provider
call. -/
theorem pollTick_calls_head (o : DeleteAppOptions) (endT : Nat) (d : String)
    (s : LoopState) (r : TickResponse) :
    (pollTick o endT d s r).calls.head? = some .updatePullRequestStatus := by
  obtain ⟨rf, rc, rm⟩ := r
  unfold pollTick
  cases rf with
  | error e => rfl
  | ok pr =>
    dsimp
    split
    · rfl
    · split
      · rfl
      · cases rc with
        | error e => simp [timeoutCheck_calls]
        | ok status =>
          dsimp
          split
          · split
            · cases rm with
              | none => simp [timeoutCheck_calls]
              | some e =>
                dsimp
                split
                · simp [timeoutCheck_calls]
                · simp [timeoutCheck_calls]
            · simp [timeoutCheck_calls]
          · split
            · rfl
            · simp [timeoutCheck_calls]

end GodogJx

namespace GodogJx

/-- Division step used for the tick count: removing one poll interval from
the remaining time lowers the quotient by exactly one. -/
theorem sub_div_succ {a P : Nat} (hP : 0 < P) (h : P ≤ a) :
    (a - P) / P + 1 = a / P := by
  conv_rhs => rw [← Nat.sub_add_cancel h]
  rw [Nat.add_div_right _ hP]

/-- `fuelNeeded` is always positive. -/
theorem fuelNeeded_pos (now endT P : Nat) : 1 ≤ fuelNeeded now endT P := by
  unfold fuelNeeded
  split
  · exact Nat.le_refl 1
  · exact Nat.succ_le_succ (Nat.zero_le _)

/-- One sleep of the poll interval consumes exactly one unit of `fuelNeeded`
while the deadline has not passed. -/
theorem fuelNeeded_succ {endT now P : Nat} (hP : 0 < P) (hn : ¬ endT < now) :
    fuelNeeded now endT P = 1 + fuelNeeded (now + P) endT P := by
  unfold fuelNeeded
  rw [if_neg hn]
  by_cases h2 : endT < now + P
  · rw [if_pos h2]
    have hlt : endT - now < P := by omega
    rw [Nat.div_eq_of_lt hlt]
  · rw [if_neg h2]
    have hPa : P ≤ endT - now := by omega
    have hdiv := sub_div_succ hP hPa
    have hsub : endT - (now + P) = endT - now - P := by omega
    rw [hsub]
    generalize (endT - now - P) / P = q2 at hdiv ⊢
    generalize (endT - now) / P = q1 at hdiv ⊢
    omega

/-- Fuel bookkeeping across one continuing tick. -/
theorem fuelNeeded_step {endT now P n : Nat} (hP : 0 < P) (hn : ¬ endT < now)
    (hf : fuelNeeded now endT P ≤ n + 1) :
    fuelNeeded (now + P) endT P ≤ n := by
  have h := @fuelNeeded_succ endT now P hP hn
  omega

/-- Once the loop has returned, giving it more fuel does not change the
returned outcome: the loop performs no further transitions after a terminal
outcome. -/
theorem waitLoop_outcome_mono (o : DeleteAppOptions) (endT : Nat) (d : String) :
    ∀ (fuel fuel' : Nat) (resps : Nat → TickResponse) (s : LoopState),
      fuel ≤ fuel' →
      ((waitLoop o endT d resps fuel s).outcome).isSome →
      (waitLoop o endT d resps fuel' s).outcome =
        (waitLoop o endT d resps fuel s).outcome := by
  intro fuel
  induction fuel with
  | zero =>
    intro fuel' resps s _ hs
    simp [waitLoop] at hs
  | succ n ih =>
    intro fuel' resps s hle hs
    obtain ⟨m, rfl⟩ : ∃ m, fuel' = m + 1 := ⟨fuel' - 1, by omega⟩
    simp only [waitLoop] at hs ⊢
    cases hnext : (pollTick o endT d s (resps 0)).next with
    | done out => rfl
    | cont s' =>
      rw [hnext] at hs
      dsimp at hs ⊢
      exact ih m (fun i => resps (i + 1)) s' (by omega) hs

/-- With at least `fuelNeeded` iterations of fuel, the loop returns. -/
theorem waitLoop_terminates (o : DeleteAppOptions) (endT : Nat) (d : String)
    (hP : 0 < o.PullRequestPollDuration) :
    ∀ (fuel : Nat) (resps : Nat → TickResponse) (s : LoopState),
      fuelNeeded s.now endT o.PullRequestPollDuration ≤ fuel →
      ((waitLoop o endT d resps fuel s).outcome).isSome := by
  intro fuel
  induction fuel with
  | zero =>
    intro resps s hf
    have := fuelNeeded_pos s.now endT o.PullRequestPollDuration
    omega
  | succ n ih =>
    intro resps s hf
    simp only [waitLoop]
    cases hnext : (pollTick o endT d s (resps 0)).next with
    | done out => rfl
    | cont s' =>
      dsimp
      apply ih
      obtain ⟨hn, hnow⟩ := pollTick_cont hnext
      rw [hnow]
      exact fuelNeeded_step hP hn hf

end GodogJx

namespace GodogJx

/-- On a non-terminal provider response, the tick always falls through to the
timeout check, and it issues exactly one `UpdatePullRequestStatus` call. -/
theorem pollTick_of_nonTerminal {o : DeleteAppOptions} {endT : Nat} {d : String}
    {s : LoopState} {r : TickResponse} (h : NonTerminalResponse r) :
    ∃ (pr : GitPullRequest) (lmf : Bool) (calls : List Call)
      (warns : List WarnEvent),
      pollTick o endT d s r = timeoutCheck o endT d pr lmf s.now calls warns ∧
      calls.count .updatePullRequestStatus = 1 := by
  obtain ⟨⟨pr, hrf, hm, hc⟩, hst⟩ := h
  obtain ⟨rf, rc, rm⟩ := r
  dsimp at hrf hst
  cases hrf
  unfold pollTick
  dsimp
  rw [if_neg hm]
  have hcl : ¬ pr.IsClosed = true := by simp [GitPullRequest.IsClosed, hc]
  rw [if_neg hcl]
  cases rc with
  | error e => exact ⟨pr, s.logMergeFailure, _, _, rfl, by decide⟩
  | ok status =>
    dsimp
    have hne := hst status rfl
    by_cases hsucc : status = "success"
    · rw [if_pos hsucc]
      cases hb : o.NoMergePullRequest with
      | true =>
        rw [if_neg (by decide)]
        exact ⟨pr, s.logMergeFailure, _, _, rfl, by decide⟩
      | false =>
        rw [if_pos (by decide)]
        cases rm with
        | none => exact ⟨pr, s.logMergeFailure, _, _, rfl, by decide⟩
        | some e =>
          dsimp
          by_cases hl : s.logMergeFailure = true
          · rw [if_pos hl]
            exact ⟨pr, true, _, _, rfl, by decide⟩
          · rw [if_neg hl]
            exact ⟨pr, true, _, _, rfl, by decide⟩
    · rw [if_neg hsucc]
      have hor : ¬ (status = "error" ∨ status = "failure") := by
        intro hx
        exact hx.elim hne.2 hne.1
      rw [if_neg hor]
      exact ⟨pr, s.logMergeFailure, _, _, rfl, by decide⟩

/-- On an all-non-terminal response stream the loop returns the timed-out
error, issuing exactly `fuelNeeded` refresh calls (one per tick). -/
theorem waitLoop_nonTerminal (o : DeleteAppOptions) (endT : Nat) (d : String)
    (hP : 0 < o.PullRequestPollDuration) :
    ∀ (fuel : Nat) (resps : Nat → TickResponse) (s : LoopState),
      (∀ i, NonTerminalResponse (resps i)) →
      fuelNeeded s.now endT o.PullRequestPollDuration ≤ fuel →
      (waitLoop o endT d resps fuel s).outcome.map Outcome.isTimedOut =
          some true ∧
        (waitLoop o endT d resps fuel s).calls.count .updatePullRequestStatus =
          fuelNeeded s.now endT o.PullRequestPollDuration := by
  intro fuel
  induction fuel with
  | zero =>
    intro resps s _ hf
    have := fuelNeeded_pos s.now endT o.PullRequestPollDuration
    omega
  | succ n ih =>
    intro resps s hresp hf
    obtain ⟨pr, lmf, calls, warns, heq, hcount⟩ :=
      @pollTick_of_nonTerminal o endT d s (resps 0) (hresp 0)
    simp only [waitLoop, heq]
    by_cases ht : endT < s.now
    · simp only [timeoutCheck]
      rw [if_pos ht]
      dsimp
      refine ⟨rfl, ?_⟩
      unfold fuelNeeded
      rw [if_pos ht]
      exact hcount
    · simp only [timeoutCheck]
      rw [if_neg ht]
      dsimp
      have hstep : fuelNeeded (s.now + o.PullRequestPollDuration) endT
          o.PullRequestPollDuration ≤ n := fuelNeeded_step hP ht hf
      have hrec := ih (fun i => resps (i + 1))
        ⟨pr, lmf, s.now + o.PullRequestPollDuration⟩ (fun i => hresp (i + 1)) hstep
      refine ⟨hrec.1, ?_⟩
      rw [List.count_append, hcount, hrec.2, fuelNeeded_succ hP ht]

/-- A tick records a `MergePullRequest` call only when auto-merge is enabled
and that tick's CI status query returned exactly "success". -/
theorem pollTick_merge_calls {o : DeleteAppOptions} {endT : Nat} {d : String}
    {s : LoopState} {r : TickResponse}
    (h : Call.mergePullRequest ∈ (pollTick o endT d s r).calls) :
    o.NoMergePullRequest = false ∧ r.ciStatus = Except.ok "success" := by
  obtain ⟨rf, rc, rm⟩ := r
  unfold pollTick at h
  cases rf with
  | error e => simp at h
  | ok pr =>
    dsimp at h ⊢
    split at h
    · simp at h
    · split at h
      · simp at h
      · cases rc with
        | error e =>
          rw [timeoutCheck_calls] at h
          simp at h
        | ok status =>
          dsimp at h ⊢
          split at h
          · next hsucc =>
            split at h
            · next hnm =>
              refine ⟨by simpa using hnm, ?_⟩
              rw [hsucc]
            · next hnm =>
              rw [timeoutCheck_calls] at h
              simp at h
          · next hsucc =>
            split at h
            · simp at h
            · rw [timeoutCheck_calls] at h
              simp at h

/-- With the `--no-merge` flag set, no iteration of the loop ever records a
`MergePullRequest` call. -/
theorem waitLoop_no_merge (o : DeleteAppOptions) (endT : Nat) (d : String)
    (hnm : o.NoMergePullRequest = true) :
    ∀ (fuel : Nat) (resps : Nat → TickResponse) (s : LoopState),
      Call.mergePullRequest ∉ (waitLoop o endT d resps fuel s).calls := by
  intro fuel
  induction fuel with
  | zero => intro resps s; simp [waitLoop]
  | succ n ih =>
    intro resps s
    simp only [waitLoop]
    cases hnext : (pollTick o endT d s (resps 0)).next with
    | done out =>
      dsimp
      intro hmem
      have hx := (pollTick_merge_calls hmem).1
      rw [hnm] at hx
      cases hx
    | cont s' =>
      dsimp
      intro hmem
      rcases List.mem_append.mp hmem with h1 | h2
      · have hx := (pollTick_merge_calls h1).1
        rw [hnm] at hx
        cases hx
      · exact ih (fun i => resps (i + 1)) s' h2

end GodogJx

namespace GodogJx

/-- C1: counterexample.  With the pull request open on every tick and the
CI status query answering "failure" on every tick (poll interval 1, timeout
2 = 2 x interval), the loop returns the last-commit-status error on the very
first tick; the outcome is not TimedOut, contradicting the claim that a bad
status is a soft failure that keeps the loop polling until the timeout. -/
theorem c1_counterexample :
    (waitForGitOpsPullRequest ⟨false, 1⟩ (some ⟨"u", "s", none, false⟩) 2 "2s"
          (fun _ => ⟨.ok ⟨"u", "s", none, false⟩, .ok "failure", none⟩) 10 0).outcome
        = some (.lastCommitStatusBad
            "Pull request u last commit has status failure for ref s") ∧
      (waitForGitOpsPullRequest ⟨false, 1⟩ (some ⟨"u", "s", none, false⟩) 2 "2s"
          (fun _ => ⟨.ok ⟨"u", "s", none, false⟩, .ok "failure", none⟩) 10 0).outcome.map
          Outcome.isTimedOut = some false :=
  ⟨rfl, rfl⟩

/-- C1 (amended): on any poll tick where the refresh succeeds, the pull
request is still open, and the CI status query succeeds with "failure" or
"error", the loop terminates immediately on that tick with the
last-commit-status error naming the URL, status and ref; it does not treat
the bad status as a soft failure. -/
theorem c1_amended_bad_status_returns (o : DeleteAppOptions) (endT : Nat)
    (d : String) (s : LoopState) (r : TickResponse) (pr : GitPullRequest)
    (status : String) (hrf : r.refresh = .ok pr) (hm : pr.merged ≠ some true)
    (hc : pr.closed = false) (hst : r.ciStatus = .ok status)
    (hbad : status = "failure" ∨ status = "error") :
    (pollTick o endT d s r).next = .done (.lastCommitStatusBad
      ("Pull request " ++ pr.url ++ " last commit has status " ++ status ++
        " for ref " ++ pr.lastCommitSha)) := by
  obtain ⟨rf, rc, rm⟩ := r
  dsimp at hrf hst
  cases hrf
  cases hst
  unfold pollTick
  dsimp
  rw [if_neg hm]
  rw [if_neg (show ¬ pr.IsClosed = true by simp [GitPullRequest.IsClosed, hc])]
  have hsucc : ¬ status = "success" := by
    rcases hbad with h | h <;> subst h <;> decide
  rw [if_neg hsucc]
  rw [if_pos hbad.symm]

/-- C1 (amended) at a concrete input. -/
theorem c1_witness :
    (pollTick ⟨false, 1⟩ 10 "2s" ⟨⟨"u", "s", none, false⟩, false, 0⟩
        ⟨.ok ⟨"u", "s", none, false⟩, .ok "failure", none⟩).next =
      .done (.lastCommitStatusBad
        ("Pull request " ++ "u" ++ " last commit has status " ++ "failure" ++
          " for ref " ++ "s")) :=
  c1_amended_bad_status_returns ⟨false, 1⟩ 10 "2s"
    ⟨⟨"u", "s", none, false⟩, false, 0⟩
    ⟨.ok ⟨"u", "s", none, false⟩, .ok "failure", none⟩
    ⟨"u", "s", none, false⟩ "failure" rfl (by decide) rfl rfl (Or.inl rfl)

/-- C2: counterexample.  On the first tick the refresh call fails with a
transient error while the deadline (100) is far away; the loop returns the
refresh-failure error immediately after a single provider call, so it does
not log-and-continue to the next tick as claimed. -/
theorem c2_counterexample :
    waitForGitOpsPullRequest ⟨false, 1⟩ (some ⟨"u", "s", none, false⟩) 100 "1h"
        (fun _ => ⟨.error "transient", .ok "pending", none⟩) 10 0 =
      ⟨some (.refreshFailed
          "Failed to query the Pull Request status for u transient"),
        [.updatePullRequestStatus], []⟩ :=
  rfl

/-- C2 (amended): on any poll tick where the refreshStatus call
(UpdatePullRequestStatus) fails, the loop returns immediately with the
query-failure error for that tick; the error is not swallowed. -/
theorem c2_amended_refresh_error_returns (o : DeleteAppOptions) (endT : Nat)
    (d : String) (s : LoopState) (r : TickResponse) (e : String)
    (hrf : r.refresh = .error e) :
    pollTick o endT d s r =
      ⟨.done (.refreshFailed ("Failed to query the Pull Request status for " ++
          s.pr.url ++ " " ++ e)), [.updatePullRequestStatus], []⟩ := by
  obtain ⟨rf, rc, rm⟩ := r
  dsimp at hrf
  cases hrf
  rfl

/-- C2 (amended) at a concrete input. -/
theorem c2_witness :
    pollTick ⟨false, 1⟩ 100 "1h" ⟨⟨"u", "s", none, false⟩, false, 0⟩
        ⟨.error "transient", .ok "pending", none⟩ =
      ⟨.done (.refreshFailed ("Failed to query the Pull Request status for " ++
          "u" ++ " " ++ "transient")), [.updatePullRequestStatus], []⟩ :=
  c2_amended_refresh_error_returns ⟨false, 1⟩ 100 "1h"
    ⟨⟨"u", "s", none, false⟩, false, 0⟩
    ⟨.error "transient", .ok "pending", none⟩ "transient" rfl

/-- C5: on any poll tick whose refresh reports the pull request both merged
and closed, the loop returns the Merged success outcome (the Go nil return),
never the closed-without-merging failure: the merged check precedes the
closed check. -/
theorem c5_merged_precedence (o : DeleteAppOptions) (endT : Nat) (d : String)
    (s : LoopState) (r : TickResponse) (pr : GitPullRequest)
    (hrf : r.refresh = .ok pr) (hm : pr.merged = some true)
    (_hc : pr.closed = true) :
    (pollTick o endT d s r).next = .done .merged ∧
      Outcome.merged.toError = none := by
  obtain ⟨rf, rc, rm⟩ := r
  dsimp at hrf
  cases hrf
  refine ⟨?_, rfl⟩
  unfold pollTick
  dsimp
  rw [if_pos hm]

/-- C5 at a concrete input. -/
theorem c5_witness :
    (pollTick ⟨false, 1⟩ 10 "2s" ⟨⟨"u", "s", none, false⟩, false, 0⟩
        ⟨.ok ⟨"u", "s", some true, true⟩, .ok "pending", none⟩).next =
        .done .merged ∧
      Outcome.merged.toError = none :=
  c5_merged_precedence ⟨false, 1⟩ 10 "2s" ⟨⟨"u", "s", none, false⟩, false, 0⟩
    ⟨.ok ⟨"u", "s", some true, true⟩, .ok "pending", none⟩
    ⟨"u", "s", some true, true⟩ rfl rfl rfl

end GodogJx

namespace GodogJx

/-- C4: counterexample.  Two consecutive ticks with CI status "success" and
a failing merge call: the merge is attempted on both ticks, but only the
first failure produces a warning (the `logMergeFailure` guard silences the
second), contradicting the claim that the failure is logged on every such
tick. -/
theorem c4_counterexample :
    (waitForGitOpsPullRequest ⟨false, 1⟩ (some ⟨"u", "s", none, false⟩) 10 "1h"
          (fun _ => ⟨.ok ⟨"u", "s", none, false⟩, .ok "success", some "denied"⟩)
          2 0).calls.count .mergePullRequest = 2 ∧
      (waitForGitOpsPullRequest ⟨false, 1⟩ (some ⟨"u", "s", none, false⟩) 10 "1h"
          (fun _ => ⟨.ok ⟨"u", "s", none, false⟩, .ok "success", some "denied"⟩)
          2 0).warns = [.mergeFailed] :=
  ⟨rfl, rfl⟩

/-- C4 (amended): on any poll tick with a successful refresh of a still-open
pull request, CI status "success", auto-merge enabled and a failing
MergePullRequest call, and whose tick time is not yet past the deadline, the
loop does not terminate: it records the merge attempt, sets
`logMergeFailure`, continues to the next tick, and a warning is printed only
if this is the first merge failure; any later tick that again sees a
successful refresh of an open pull request with status "success" re-attempts
the merge. -/
theorem c4_amended_merge_failure_swallowed (o : DeleteAppOptions) (endT : Nat)
    (d : String) (s : LoopState) (r : TickResponse) (pr : GitPullRequest)
    (e : String) (hrf : r.refresh = .ok pr) (hm : pr.merged ≠ some true)
    (hc : pr.closed = false) (hst : r.ciStatus = .ok "success")
    (hnm : o.NoMergePullRequest = false) (hme : r.mergeError = some e)
    (ht : ¬ endT < s.now) :
    (pollTick o endT d s r).next =
        .cont ⟨pr, true, s.now + o.PullRequestPollDuration⟩ ∧
      Call.mergePullRequest ∈ (pollTick o endT d s r).calls ∧
      (pollTick o endT d s r).warns =
        (if s.logMergeFailure then [] else [.mergeFailed]) ∧
      (∀ (r' : TickResponse) (pr' : GitPullRequest), r'.refresh = .ok pr' →
        pr'.merged ≠ some true → pr'.closed = false →
        r'.ciStatus = .ok "success" →
        Call.mergePullRequest ∈
          (pollTick o endT d ⟨pr, true, s.now + o.PullRequestPollDuration⟩
            r').calls) := by
  obtain ⟨rf, rc, rm⟩ := r
  dsimp at hrf hst hme
  cases hrf
  cases hst
  cases hme
  refine ⟨?_, ?_, ?_, ?_⟩
  · unfold pollTick
    dsimp
    rw [if_neg hm]
    rw [if_neg (show ¬ pr.IsClosed = true by simp [GitPullRequest.IsClosed, hc])]
    rw [if_pos (show (!o.NoMergePullRequest) = true by simp [hnm])]
    split <;> (unfold timeoutCheck; rw [if_neg ht])
  · unfold pollTick
    dsimp
    rw [if_neg hm]
    rw [if_neg (show ¬ pr.IsClosed = true by simp [GitPullRequest.IsClosed, hc])]
    rw [if_pos (show (!o.NoMergePullRequest) = true by simp [hnm])]
    split <;> (rw [timeoutCheck_calls]; simp)
  · unfold pollTick
    dsimp
    rw [if_neg hm]
    rw [if_neg (show ¬ pr.IsClosed = true by simp [GitPullRequest.IsClosed, hc])]
    rw [if_pos (show (!o.NoMergePullRequest) = true by simp [hnm])]
    by_cases hl : s.logMergeFailure = true <;> simp [hl, timeoutCheck_warns]
  · intro r' pr' hrf' hm' hc' hst'
    obtain ⟨rf', rc', rm'⟩ := r'
    dsimp at hrf' hst'
    cases hrf'
    cases hst'
    unfold pollTick
    dsimp
    rw [if_neg hm']
    rw [if_neg (show ¬ pr'.IsClosed = true by
      simp [GitPullRequest.IsClosed, hc'])]
    rw [if_pos (show (!o.NoMergePullRequest) = true by simp [hnm])]
    cases rm' <;> (rw [timeoutCheck_calls]; simp)

/-- C4 (amended) at a concrete input. -/
theorem c4_witness :
    (pollTick ⟨false, 1⟩ 10 "1h" ⟨⟨"u", "s", none, false⟩, false, 0⟩
          ⟨.ok ⟨"u", "s", none, false⟩, .ok "success", some "denied"⟩).next =
        .cont ⟨⟨"u", "s", none, false⟩, true, 0 + 1⟩ ∧
      Call.mergePullRequest ∈
        (pollTick ⟨false, 1⟩ 10 "1h" ⟨⟨"u", "s", none, false⟩, false, 0⟩
          ⟨.ok ⟨"u", "s", none, false⟩, .ok "success", some "denied"⟩).calls ∧
      (pollTick ⟨false, 1⟩ 10 "1h" ⟨⟨"u", "s", none, false⟩, false, 0⟩
          ⟨.ok ⟨"u", "s", none, false⟩, .ok "success", some "denied"⟩).warns =
        (if (⟨⟨"u", "s", none, false⟩, false, 0⟩ : LoopState).logMergeFailure
          then [] else [.mergeFailed]) ∧
      (∀ (r' : TickResponse) (pr' : GitPullRequest), r'.refresh = .ok pr' →
        pr'.merged ≠ some true → pr'.closed = false →
        r'.ciStatus = .ok "success" →
        Call.mergePullRequest ∈
          (pollTick ⟨false, 1⟩ 10 "1h" ⟨⟨"u", "s", none, false⟩, true, 0 + 1⟩
            r').calls) :=
  c4_amended_merge_failure_swallowed ⟨false, 1⟩ 10 "1h"
    ⟨⟨"u", "s", none, false⟩, false, 0⟩
    ⟨.ok ⟨"u", "s", none, false⟩, .ok "success", some "denied"⟩
    ⟨"u", "s", none, false⟩ "denied" rfl (by decide) rfl rfl rfl rfl
    (by decide)

end GodogJx

namespace GodogJx

/-- C8: on any invocation of the loop whose first tick refreshes the pull
request to closed-but-not-merged, the loop returns immediately with the
closed-without-merging error: its message contains the pull request URL, the
tick makes no provider call beyond the refresh (no CI status query, no
merge), and no further tick runs regardless of the remaining fuel. -/
theorem c8_closed_without_merge_returns (o : DeleteAppOptions) (endT : Nat)
    (d : String) (resps : Nat → TickResponse) (fuel : Nat)
    (pr0 pr : GitPullRequest) (startTime : Nat)
    (hrf : (resps 0).refresh = .ok pr) (hm : ¬ pr.merged = some true)
    (hc : pr.closed = true) :
    waitForGitOpsPullRequest o (some pr0) endT d resps (fuel + 1) startTime =
        ⟨some (.closedWithoutMerge ("Promotion failed as Pull Request " ++
            pr.url ++ " is closed without merging")),
          [.updatePullRequestStatus], [.prClosed]⟩ ∧
      ∃ a b, ("Promotion failed as Pull Request " ++ pr.url ++
          " is closed without merging") = a ++ pr.url ++ b := by
  refine ⟨?_, "Promotion failed as Pull Request ",
    " is closed without merging", rfl⟩
  unfold waitForGitOpsPullRequest
  simp only [waitLoop]
  unfold pollTick
  rw [hrf]
  dsimp
  rw [if_neg hm]
  rw [if_pos (show pr.IsClosed = true by simp [GitPullRequest.IsClosed, hc])]

/-- C8 at a concrete input. -/
theorem c8_witness :
    waitForGitOpsPullRequest ⟨false, 1⟩ (some ⟨"u", "s", none, false⟩) 10 "1h"
          (fun _ => ⟨.ok ⟨"u", "s", some false, true⟩, .ok "pending", none⟩)
          (4 + 1) 0 =
        ⟨some (.closedWithoutMerge ("Promotion failed as Pull Request " ++
            "u" ++ " is closed without merging")),
          [.updatePullRequestStatus], [.prClosed]⟩ ∧
      ∃ a b, ("Promotion failed as Pull Request " ++ "u" ++
          " is closed without merging") = a ++ "u" ++ b :=
  c8_closed_without_merge_returns ⟨false, 1⟩ 10 "1h"
    (fun _ => ⟨.ok ⟨"u", "s", some false, true⟩, .ok "pending", none⟩) 4
    ⟨"u", "s", none, false⟩ ⟨"u", "s", some false, true⟩ 0 rfl (by decide) rfl

/-- C9: on any poll tick where the refresh succeeds, the pull request is
still open, and the last-commit-status query fails, the failure is
swallowed: the tick prints the warning, makes no merge attempt, and falls
through to the timeout check — continuing to the next tick when the
deadline has not passed, or timing out when it has. -/
theorem c9_status_query_failure_swallowed (o : DeleteAppOptions) (endT : Nat)
    (d : String) (s : LoopState) (r : TickResponse) (pr : GitPullRequest)
    (e : String) (hrf : r.refresh = .ok pr) (hm : ¬ pr.merged = some true)
    (hc : pr.closed = false) (hst : r.ciStatus = .error e) :
    pollTick o endT d s r =
      ⟨(if endT < s.now
          then .done (.timedOut ("Timed out waiting for pull request " ++
              pr.url ++ " to merge. Waited " ++ d))
          else .cont ⟨pr, s.logMergeFailure,
              s.now + o.PullRequestPollDuration⟩),
        [.updatePullRequestStatus, .pullRequestLastCommitStatus],
        [.ciStatusQueryFailed]⟩ := by
  obtain ⟨rf, rc, rm⟩ := r
  dsimp at hrf hst
  cases hrf
  cases hst
  unfold pollTick
  dsimp
  rw [if_neg hm]
  rw [if_neg (show ¬ pr.IsClosed = true by simp [GitPullRequest.IsClosed, hc])]
  unfold timeoutCheck
  split <;> rfl

/-- C9 at a concrete input (deadline not yet passed, so the loop goes on to
the next tick). -/
theorem c9_witness :
    pollTick ⟨false, 1⟩ 10 "1h" ⟨⟨"u", "s", none, false⟩, false, 0⟩
        ⟨.ok ⟨"u", "s", none, false⟩, .error "flaky", none⟩ =
      ⟨(if (10 : Nat) < 0
          then .done (.timedOut ("Timed out waiting for pull request " ++
              "u" ++ " to merge. Waited " ++ "1h"))
          else .cont ⟨⟨"u", "s", none, false⟩, false, 0 + 1⟩),
        [.updatePullRequestStatus, .pullRequestLastCommitStatus],
        [.ciStatusQueryFailed]⟩ :=
  c9_status_query_failure_swallowed ⟨false, 1⟩ 10 "1h"
    ⟨⟨"u", "s", none, false⟩, false, 0⟩
    ⟨.ok ⟨"u", "s", none, false⟩, .error "flaky", none⟩
    ⟨"u", "s", none, false⟩ "flaky" rfl (by decide) rfl rfl

/-- C10: whenever the loop runs with a pull request present and any fuel at
all, its first provider call is the status refresh — the timeout is only
checked at the end of a tick, so even an invocation whose deadline has
already passed performs one refresh; and if that first refresh reports the
pull request merged, the loop returns the Merged success outcome, not the
timed-out failure. -/
theorem c10_refresh_before_timeout (o : DeleteAppOptions) (endT : Nat)
    (d : String) (resps : Nat → TickResponse) (fuel : Nat)
    (pr0 : GitPullRequest) (startTime : Nat) (hfuel : 1 ≤ fuel) :
    (waitForGitOpsPullRequest o (some pr0) endT d resps fuel
          startTime).calls.head? = some .updatePullRequestStatus ∧
      (∀ pr : GitPullRequest, (resps 0).refresh = .ok pr →
        pr.merged = some true →
        (waitForGitOpsPullRequest o (some pr0) endT d resps fuel
          startTime).outcome = some .merged) := by
  obtain ⟨n, rfl⟩ : ∃ n, fuel = n + 1 := ⟨fuel - 1, by omega⟩
  constructor
  · unfold waitForGitOpsPullRequest
    simp only [waitLoop]
    cases hnext : (pollTick o endT d ⟨pr0, false, startTime⟩ (resps 0)).next with
    | done out =>
      dsimp
      exact pollTick_calls_head o endT d ⟨pr0, false, startTime⟩ (resps 0)
    | cont s' =>
      dsimp
      rw [List.head?_append]
      rw [pollTick_calls_head o endT d ⟨pr0, false, startTime⟩ (resps 0)]
      rfl
  · intro pr hrf hm
    unfold waitForGitOpsPullRequest
    simp only [waitLoop]
    unfold pollTick
    rw [hrf]
    dsimp
    rw [if_pos hm]

/-- C10 at a concrete input whose deadline (0) has already passed at the
start time (5): the merged pull request still wins over the timeout. -/
theorem c10_witness :
    ((waitForGitOpsPullRequest ⟨false, 1⟩ (some ⟨"u", "s", none, false⟩) 0 "1s"
          (fun _ => ⟨.ok ⟨"u", "s", some true, false⟩, .ok "pending", none⟩) 3
          5).calls.head? = some .updatePullRequestStatus ∧
      (∀ pr : GitPullRequest,
        (⟨.ok ⟨"u", "s", some true, false⟩, .ok "pending", none⟩ :
            TickResponse).refresh = .ok pr →
        pr.merged = some true →
        (waitForGitOpsPullRequest ⟨false, 1⟩ (some ⟨"u", "s", none, false⟩) 0
          "1s" (fun _ => ⟨.ok ⟨"u", "s", some true, false⟩, .ok "pending",
            none⟩) 3 5).outcome = some .merged)) ∧
      (waitForGitOpsPullRequest ⟨false, 1⟩ (some ⟨"u", "s", none, false⟩) 0 "1s"
          (fun _ => ⟨.ok ⟨"u", "s", some true, false⟩, .ok "pending", none⟩) 3
          5).outcome = some .merged :=
  ⟨c10_refresh_before_timeout ⟨false, 1⟩ 0 "1s"
      (fun _ => ⟨.ok ⟨"u", "s", some true, false⟩, .ok "pending", none⟩) 3
      ⟨"u", "s", none, false⟩ 5 (by decide),
    (c10_refresh_before_timeout ⟨false, 1⟩ 0 "1s"
      (fun _ => ⟨.ok ⟨"u", "s", some true, false⟩, .ok "pending", none⟩) 3
      ⟨"u", "s", none, false⟩ 5 (by decide)).2
      ⟨"u", "s", some true, false⟩ rfl rfl⟩

end GodogJx

namespace GodogJx

/-- C3: counterexample.  A provider that keeps the pull request open but
reports CI status "error" drives the loop into the last-commit-status error
return — a terminal outcome that is none of Merged, ClosedWithoutMerge and
TimedOut, contradicting the claim that exactly one of those three is always
reached. -/
theorem c3_counterexample :
    (waitForGitOpsPullRequest ⟨false, 1⟩ (some ⟨"u", "s", none, false⟩) 5 "5s"
          (fun _ => ⟨.ok ⟨"u", "s", none, false⟩, .ok "error", none⟩) 10
          0).outcome.map Outcome.inSpecTerminal = some false :=
  rfl

/-- C3 (amended): for every response sequence the loop reaches exactly one
terminal outcome — Merged, ClosedWithoutMerge, TimedOut, the
refresh-query-failure error, or the CI-status failure/error return — once
given at least `fuelNeeded` iterations, and the outcome never changes when
the loop is allowed more iterations (no transitions after the terminal
outcome). -/
theorem c3_amended_terminal_exclusive (o : DeleteAppOptions) (endT : Nat)
    (d : String) (resps : Nat → TickResponse) (pr : GitPullRequest)
    (startTime fuel : Nat) (hP : 0 < o.PullRequestPollDuration)
    (hf : fuelNeeded startTime endT o.PullRequestPollDuration ≤ fuel) :
    ∃ out : Outcome, ∀ fuel', fuel ≤ fuel' →
      (waitForGitOpsPullRequest o (some pr) endT d resps fuel'
        startTime).outcome = some out := by
  have hs := waitLoop_terminates o endT d hP fuel resps ⟨pr, false, startTime⟩ hf
  obtain ⟨out, hout⟩ := Option.isSome_iff_exists.mp hs
  refine ⟨out, fun fuel' hle => ?_⟩
  unfold waitForGitOpsPullRequest
  rw [waitLoop_outcome_mono o endT d fuel fuel' resps ⟨pr, false, startTime⟩
    hle hs]
  exact hout

/-- C3 (amended) at a concrete input. -/
theorem c3_witness :
    0 < (⟨false, 1⟩ : DeleteAppOptions).PullRequestPollDuration ∧
      fuelNeeded 0 2 (⟨false, 1⟩ : DeleteAppOptions).PullRequestPollDuration
        ≤ 4 ∧
      ∃ out : Outcome, ∀ fuel', 4 ≤ fuel' →
        (waitForGitOpsPullRequest ⟨false, 1⟩ (some ⟨"u", "s", none, false⟩) 2
          "2s" (fun _ => ⟨.ok ⟨"u", "s", none, false⟩, .ok "pending", none⟩)
          fuel' 0).outcome = some out :=
  ⟨by decide, by decide,
    c3_amended_terminal_exclusive ⟨false, 1⟩ 2 "2s"
      (fun _ => ⟨.ok ⟨"u", "s", none, false⟩, .ok "pending", none⟩)
      ⟨"u", "s", none, false⟩ 0 4 (by decide) (by decide)⟩

/-- C6: counterexample.  First run: the pull request never becomes merged or
closed, yet with CI status "failure" on every tick the loop returns the
CI-status error, not the timed-out outcome.  Second run: with
timeout = 2 x pollInterval (endTime 2, interval 1, start 0) and a provider
forever answering "pending", the loop does time out but only after 4
refresh calls — more than the claimed bound timeout/pollInterval + 1 = 3,
because the tick whose check time equals the deadline still continues
(`time.Now().After(end)` is strict). -/
theorem c6_counterexample :
    (waitForGitOpsPullRequest ⟨false, 1⟩ (some ⟨"u", "s", none, false⟩) 3 "3s"
          (fun _ => ⟨.ok ⟨"u", "s", none, false⟩, .ok "failure", none⟩) 10
          0).outcome.map Outcome.isTimedOut = some false ∧
      (waitForGitOpsPullRequest ⟨false, 1⟩ (some ⟨"u", "s", none, false⟩) 2
          "2s" (fun _ => ⟨.ok ⟨"u", "s", none, false⟩, .ok "pending", none⟩)
          10 0).outcome.map Outcome.isTimedOut = some true ∧
      (waitForGitOpsPullRequest ⟨false, 1⟩ (some ⟨"u", "s", none, false⟩) 2
          "2s" (fun _ => ⟨.ok ⟨"u", "s", none, false⟩, .ok "pending", none⟩)
          10 0).calls.count .updatePullRequestStatus = 4 :=
  ⟨rfl, rfl, rfl⟩

/-- C6 (amended): if every tick's response keeps the pull request open
(refresh succeeds, not merged, not closed) and the CI status is never
"failure" or "error" (the query may fail or return any other status), the
loop terminates with the timed-out outcome, on the first tick whose check
time strictly exceeds startTime + timeout; it therefore performs exactly
`fuelNeeded startTime endTime pollInterval` ticks — that is,
timeout / pollInterval + 2 refresh calls when the deadline lies ahead. -/
theorem c6_amended_timeout_bound (o : DeleteAppOptions) (endT : Nat)
    (d : String) (resps : Nat → TickResponse) (pr : GitPullRequest)
    (startTime fuel : Nat) (hP : 0 < o.PullRequestPollDuration)
    (hresp : ∀ i, NonTerminalResponse (resps i))
    (hf : fuelNeeded startTime endT o.PullRequestPollDuration ≤ fuel) :
    (waitForGitOpsPullRequest o (some pr) endT d resps fuel
          startTime).outcome.map Outcome.isTimedOut = some true ∧
      (waitForGitOpsPullRequest o (some pr) endT d resps fuel
          startTime).calls.count .updatePullRequestStatus =
        fuelNeeded startTime endT o.PullRequestPollDuration :=
  waitLoop_nonTerminal o endT d hP fuel resps ⟨pr, false, startTime⟩ hresp hf

/-- C6 (amended) at a concrete input. -/
theorem c6_witness :
    (waitForGitOpsPullRequest ⟨false, 1⟩ (some ⟨"u", "s", none, false⟩) 2 "2s"
          (fun _ => ⟨.ok ⟨"u", "s", none, false⟩, .ok "pending", none⟩) 4
          0).outcome.map Outcome.isTimedOut = some true ∧
      (waitForGitOpsPullRequest ⟨false, 1⟩ (some ⟨"u", "s", none, false⟩) 2
          "2s" (fun _ => ⟨.ok ⟨"u", "s", none, false⟩, .ok "pending", none⟩)
          4 0).calls.count .updatePullRequestStatus = fuelNeeded 0 2 1 :=
  c6_amended_timeout_bound ⟨false, 1⟩ 2 "2s"
    (fun _ => ⟨.ok ⟨"u", "s", none, false⟩, .ok "pending", none⟩)
    ⟨"u", "s", none, false⟩ 0 4 (by decide)
    (fun _ => ⟨⟨⟨"u", "s", none, false⟩, rfl, by decide, rfl⟩,
      fun st h => by cases h; exact ⟨by decide, by decide⟩⟩)
    (by decide)

/-- C7: with the `--no-merge` flag set, the loop never records a
MergePullRequest call over any run; and even with auto-merge enabled, a
tick records a MergePullRequest call only when that tick's CI status query
returned exactly "success". -/
theorem c7_merge_gating (o : DeleteAppOptions) (endT : Nat) (d : String) :
    (∀ (resps : Nat → TickResponse) (fuel : Nat) (s : LoopState),
        o.NoMergePullRequest = true →
        Call.mergePullRequest ∉ (waitLoop o endT d resps fuel s).calls) ∧
      (∀ (s : LoopState) (r : TickResponse),
        Call.mergePullRequest ∈ (pollTick o endT d s r).calls →
        r.ciStatus = Except.ok "success") :=
  ⟨fun resps fuel s hnm => waitLoop_no_merge o endT d hnm fuel resps s,
    fun _ _ h => (pollTick_merge_calls h).2⟩

/-- C7 at concrete inputs: a `--no-merge` run with an always-"success"
provider records no merge call; and a concrete tick that does record a
merge call indeed had status "success". -/
theorem c7_witness :
    Call.mergePullRequest ∉ (waitLoop ⟨true, 1⟩ 10 "1h"
        (fun _ => ⟨.ok ⟨"u", "s", none, false⟩, .ok "success", none⟩) 5
        ⟨⟨"u", "s", none, false⟩, false, 0⟩).calls ∧
      (⟨.ok ⟨"u", "s", none, false⟩, .ok "success", none⟩ :
          TickResponse).ciStatus = Except.ok "success" :=
  ⟨(c7_merge_gating ⟨true, 1⟩ 10 "1h").1
      (fun _ => ⟨.ok ⟨"u", "s", none, false⟩, .ok "success", none⟩) 5
      ⟨⟨"u", "s", none, false⟩, false, 0⟩ rfl,
    (c7_merge_gating ⟨false, 1⟩ 10 "1h").2
      ⟨⟨"u", "s", none, false⟩, false, 0⟩
      ⟨.ok ⟨"u", "s", none, false⟩, .ok "success", none⟩
      (by exact .tail _ (.tail _ (.head _)))⟩

end GodogJx
